import Mathlib

/-!
Verification of the SDL thread-synchronization interface (SDL_mutex.h):
a recursive mutex, a counting semaphore, and a condition variable.  The
header declares the operations, their return contract and the two sentinel
constants; the native implementation files (SDL_sysmutex.c, SDL_syssem.c,
SDL_syscond.c) are external, so the operational behaviour below is modelled
from the specification's state semantics.
-/

/-- Timeout sentinel from SDL_mutex.h line 44: synchronization functions
which can time out return this value if they time out.
In C: SDL_MUTEX_TIMEDOUT is defined as 1. -/
def SDL_MUTEX_TIMEDOUT : Int := 1

/-- Bitwise complement of a 32-bit unsigned value, the C expression
of the form tilde applied to a Uint32. -/
def uint32_not (x : Nat) : Nat := 2 ^ 32 - 1 - x % 2 ^ 32

/-- Sentinel from SDL_mutex.h line 49: the timeout value which corresponds
to never time out.  In C: the bitwise complement of (Uint32)0. -/
def SDL_MUTEX_MAXWAIT : Nat := uint32_not 0

/-- Thread identifiers, abstract in the interface. -/
abbrev ThreadId := Nat

/-- Modelled from the spec: logical state of an SDL recursive mutex.  The
implementation file SDL_sysmutex.c is not part of src/; spec section 3 gives
the data model: an optional owner thread and a recursion depth. -/
structure SDL_mutex where
  owner : Option ThreadId
  depth : Nat
deriving DecidableEq, Repr

/-- Modelled from the spec: SDL_CreateMutex (SDL_sysmutex.c not in src/).
Creates a mutex, initialized unlocked: no owner, depth 0. -/
def SDL_CreateMutex : SDL_mutex := { owner := none, depth := 0 }

/-- Modelled from the spec: SDL_LockMutex (SDL_sysmutex.c not in src/).
The owning thread increments the depth and returns immediately; a free
mutex is acquired at depth 1; a mutex owned by another thread makes the
caller block, modelled as result `none` (the call cannot complete now). -/
def SDL_LockMutex (t : ThreadId) (m : SDL_mutex) : Option (Int × SDL_mutex) :=
  match m.owner with
  | some u =>
      if u = t then some (0, { owner := some t, depth := m.depth + 1 })
      else none
  | none => some (0, { owner := some t, depth := 1 })

/-- Modelled from the spec: core of SDL_TryLockMutex (SDL_sysmutex.c not in
src/).  Total function on mutex states — the call never blocks: it acquires
or recursively increments for 0, or reports the would-block sentinel
SDL_MUTEX_TIMEDOUT when another thread owns the mutex, leaving it unchanged. -/
def tryLockMutex (t : ThreadId) (m : SDL_mutex) : Int × SDL_mutex :=
  match m.owner with
  | some u =>
      if u = t then (0, { owner := some t, depth := m.depth + 1 })
      else (SDL_MUTEX_TIMEDOUT, m)
  | none => (0, { owner := some t, depth := 1 })

/-- Modelled from the spec: SDL_TryLockMutex at the API boundary, where the
mutex argument is a possibly-null handle; a null handle is an
InvalidArgument error reported as -1 (spec section 7). -/
def SDL_TryLockMutex (t : ThreadId) : Option SDL_mutex → Int × Option SDL_mutex
  | none => (-1, none)
  | some m => ((tryLockMutex t m).1, some (tryLockMutex t m).2)

/-- Modelled from the spec: SDL_UnlockMutex (SDL_sysmutex.c not in src/).
Must be called by the current owner: decrements the depth and, when the
depth reaches 0, clears the owner.  An unlock by a non-owner is an
ownership violation with no defined result, modelled as `none`. -/
def SDL_UnlockMutex (t : ThreadId) (m : SDL_mutex) : Option (Int × SDL_mutex) :=
  match m.owner with
  | some u =>
      if u = t then
        some (0, { owner := if m.depth - 1 = 0 then none else some t
                   depth := m.depth - 1 })
      else none
  | none => none

/-- Mutex state after an SDL_LockMutex call by thread t; when the call
blocks the state is unchanged. -/
def lockState (t : ThreadId) (m : SDL_mutex) : SDL_mutex :=
  match SDL_LockMutex t m with
  | none => m
  | some r => r.2

/-- Mutex state after an SDL_UnlockMutex call by thread t; an undefined
call (non-owner unlock) leaves the state unchanged. -/
def unlockState (t : ThreadId) (m : SDL_mutex) : SDL_mutex :=
  match SDL_UnlockMutex t m with
  | none => m
  | some r => r.2

/-- Iterated SDL_LockMutex: k sequential lock calls by one thread. -/
def lockN (t : ThreadId) : Nat → SDL_mutex → Option SDL_mutex
  | 0, m => some m
  | k + 1, m => (SDL_LockMutex t m).bind fun r => lockN t k r.2

/-- Iterated SDL_UnlockMutex: k sequential unlock calls by one thread. -/
def unlockN (t : ThreadId) : Nat → SDL_mutex → Option SDL_mutex
  | 0, m => some m
  | k + 1, m => (SDL_UnlockMutex t m).bind fun r => unlockN t k r.2

/-- Availability to foreign threads, spec section 3: a foreign thread may
only acquire when the depth is 0, i.e. when there is no owner. -/
def available (m : SDL_mutex) : Bool := m.owner.isNone

/-- Mutex state invariant, spec section 3: the depth is positive exactly
when some thread owns the mutex. -/
def mutexInv (m : SDL_mutex) : Prop := 0 < m.depth ↔ m.owner.isSome = true

instance : DecidablePred mutexInv := by
  intro m
  unfold mutexInv
  infer_instance

/-- Modelled from the spec: logical state of an SDL counting semaphore
(SDL_syssem.c not in src/): a nonnegative permit count. -/
structure SDL_semaphore where
  count : Nat
deriving DecidableEq, Repr

/-- Modelled from the spec: SDL_CreateSemaphore — the count starts at the
given value. -/
def SDL_CreateSemaphore (v : Nat) : SDL_semaphore := { count := v }

/-- Environment event observed by a blocked semaphore wait: either a post
arrived before the deadline, or the deadline fired first. -/
inductive SemEvent where
  | postArrived
  | deadline
deriving DecidableEq, Repr

/-- Modelled from the spec: SDL_SemWait (SDL_syssem.c not in src/).
Suspends the calling thread until the count is positive, then atomically
decrements it.  A wait that blocked on a zero count is released by a post;
the post's increment and this call's decrement cancel, so the recorded
state keeps the entry count. -/
def SDL_SemWait (s : SDL_semaphore) : Int × SDL_semaphore :=
  if 0 < s.count then (0, { count := s.count - 1 }) else (0, s)

/-- Modelled from the spec: SDL_SemWaitTimeout (SDL_syssem.c not in src/).
Waits up to ms milliseconds for a positive count, decrementing on success;
the event argument records whether a post or the deadline came first while
blocked.  With the SDL_MUTEX_MAXWAIT sentinel the deadline never fires. -/
def SDL_SemWaitTimeout (s : SDL_semaphore) (ms : Nat) (ev : SemEvent) :
    Int × SDL_semaphore :=
  if 0 < s.count then (0, { count := s.count - 1 })
  else if ms ≠ SDL_MUTEX_MAXWAIT ∧ ev = SemEvent.deadline then
    (SDL_MUTEX_TIMEDOUT, s)
  else (0, s)

/-- Phases of one condition-variable wait call, following the state machine
of spec section 4.3: Locked, then unlock, Waiting, wake with a result, then
relock, Locked again. -/
inductive WaitPhase where
  | start
  | waiting
  | woken (r : Int)
  | done (r : Int)
deriving DecidableEq, Repr

/-- Configuration of one condition wait: the coordinating mutex together
with the phase the call is in. -/
structure CondConfig where
  m : SDL_mutex
  phase : WaitPhase
deriving DecidableEq, Repr

/-- Modelled from the spec: small-step semantics of SDL_CondWaitTimeout by
thread t with timeout ms (SDL_syscond.c not in src/).  Entry requires
holding the mutex at depth 1; release of the mutex and suspension are a
single atomic step; a waiting thread is woken by signal/broadcast
(result 0), by the deadline when ms is finite (result SDL_MUTEX_TIMEDOUT),
or by a native error (result -1); in every case the mutex is re-acquired
before the call returns. -/
inductive CondStep (t : ThreadId) (ms : Nat) : CondConfig → CondConfig → Prop where
  | release (m : SDL_mutex) (hown : m.owner = some t) (hd : m.depth = 1) :
      CondStep t ms ⟨m, WaitPhase.start⟩
        ⟨{ owner := none, depth := 0 }, WaitPhase.waiting⟩
  | wakeSignal (m : SDL_mutex) :
      CondStep t ms ⟨m, WaitPhase.waiting⟩ ⟨m, WaitPhase.woken 0⟩
  | wakeDeadline (m : SDL_mutex) (hms : ms ≠ SDL_MUTEX_MAXWAIT) :
      CondStep t ms ⟨m, WaitPhase.waiting⟩
        ⟨m, WaitPhase.woken SDL_MUTEX_TIMEDOUT⟩
  | wakeError (m : SDL_mutex) :
      CondStep t ms ⟨m, WaitPhase.waiting⟩ ⟨m, WaitPhase.woken (-1)⟩
  | relock (m : SDL_mutex) (r : Int) (hfree : m.owner = none) :
      CondStep t ms ⟨m, WaitPhase.woken r⟩
        ⟨{ owner := some t, depth := 1 }, WaitPhase.done r⟩

/-- Modelled from the spec: SDL_CondWait is the indefinite wait, i.e.
SDL_CondWaitTimeout with the SDL_MUTEX_MAXWAIT sentinel. -/
def CondWaitStep (t : ThreadId) : CondConfig → CondConfig → Prop :=
  CondStep t SDL_MUTEX_MAXWAIT

/-- Public operations declared in SDL_mutex.h. -/
inductive SDLOp where
  | createMutex
  | lockMutex
  | tryLockMutex
  | unlockMutex
  | destroyMutex
  | createSemaphore
  | destroySemaphore
  | semWait
  | semTryWait
  | semWaitTimeout
  | semPost
  | semValue
  | createCond
  | destroyCond
  | condSignal
  | condBroadcast
  | condWait
  | condWaitTimeout
deriving DecidableEq, Repr

/-- C return-type shapes occurring in SDL_mutex.h. -/
inductive CRet where
  | void
  | int
  | uint32
  | ptr
deriving DecidableEq, Repr

/-- Return type of each public operation as declared in SDL_mutex.h. -/
def retType : SDLOp → CRet
  | SDLOp.createMutex => CRet.ptr
  | SDLOp.lockMutex => CRet.int
  | SDLOp.tryLockMutex => CRet.int
  | SDLOp.unlockMutex => CRet.int
  | SDLOp.destroyMutex => CRet.void
  | SDLOp.createSemaphore => CRet.ptr
  | SDLOp.destroySemaphore => CRet.void
  | SDLOp.semWait => CRet.int
  | SDLOp.semTryWait => CRet.int
  | SDLOp.semWaitTimeout => CRet.int
  | SDLOp.semPost => CRet.int
  | SDLOp.semValue => CRet.uint32
  | SDLOp.createCond => CRet.ptr
  | SDLOp.destroyCond => CRet.void
  | SDLOp.condSignal => CRet.int
  | SDLOp.condBroadcast => CRet.int
  | SDLOp.condWait => CRet.int
  | SDLOp.condWaitTimeout => CRet.int

/-- C5: when SDL_SemWaitTimeout returns SDL_MUTEX_TIMEDOUT (the deadline
elapsed before the count became positive), the semaphore count is left
unchanged, equal to its value at entry. -/
theorem semWaitTimeout_timedout_frame (s : SDL_semaphore) (ms : Nat)
    (ev : SemEvent)
    (h : (SDL_SemWaitTimeout s ms ev).1 = SDL_MUTEX_TIMEDOUT) :
    (SDL_SemWaitTimeout s ms ev).2 = s := by
  unfold SDL_SemWaitTimeout at h ⊢
  split at h
  · simp [SDL_MUTEX_TIMEDOUT] at h
  · split at h
    · simp_all
    · simp [SDL_MUTEX_TIMEDOUT] at h

/-- C5 witness: a zero-count semaphore with ms = 50 whose deadline fires
returns SDL_MUTEX_TIMEDOUT and keeps its count. -/
theorem semWaitTimeout_timedout_frame_witness :
    (SDL_SemWaitTimeout ⟨0⟩ 50 SemEvent.deadline).2 = ⟨0⟩ :=
  semWaitTimeout_timedout_frame ⟨0⟩ 50 SemEvent.deadline (by decide)

/-- C6: SDL_SemWaitTimeout with ms = SDL_MUTEX_MAXWAIT is equivalent to
SDL_SemWait: same result value and same effect on the count, and a
TimedOut return is impossible (the result is always 0 here). -/
theorem semWaitTimeout_maxwait_eq_semWait (s : SDL_semaphore) (ev : SemEvent) :
    SDL_SemWaitTimeout s SDL_MUTEX_MAXWAIT ev = SDL_SemWait s ∧
    (SDL_SemWaitTimeout s SDL_MUTEX_MAXWAIT ev).1 = 0 := by
  unfold SDL_SemWaitTimeout SDL_SemWait
  constructor
  · split
    · rfl
    · simp
  · split
    · rfl
    · simp

/-- C8: the per-call outcomes are pairwise distinct: Success is 0, the
would-block/TimedOut sentinel SDL_MUTEX_TIMEDOUT is positive (hence
distinct from 0 and not negative), and the Error result -1 is negative;
the operations that can time out only produce these values. -/
theorem outcome_encoding_distinct :
    (0 : Int) < SDL_MUTEX_TIMEDOUT ∧ (-1 : Int) < 0 ∧
    (∀ t : ThreadId, (SDL_TryLockMutex t none).1 < 0) ∧
    (∀ (t : ThreadId) (m : SDL_mutex),
      (SDL_TryLockMutex t (some m)).1 = 0 ∨
      (SDL_TryLockMutex t (some m)).1 = SDL_MUTEX_TIMEDOUT) ∧
    (∀ (s : SDL_semaphore) (ms : Nat) (ev : SemEvent),
      (SDL_SemWaitTimeout s ms ev).1 = 0 ∨
      (SDL_SemWaitTimeout s ms ev).1 = SDL_MUTEX_TIMEDOUT) := by
  refine ⟨by decide, by decide, fun t => by simp [SDL_TryLockMutex], ?_, ?_⟩
  · intro t m
    unfold SDL_TryLockMutex tryLockMutex
    rcases m with ⟨o, d⟩
    rcases o with _ | u
    · simp
    · by_cases hu : u = t <;> simp [hu]
  · intro s ms ev
    unfold SDL_SemWaitTimeout
    split
    · simp
    · split <;> simp

/-- C9: the wait-forever sentinel SDL_MUTEX_MAXWAIT is the all-bits-set
32-bit unsigned value 2 ^ 32 - 1, the maximum representable millisecond
timeout; every other representable ms value is strictly below it. -/
theorem maxwait_is_all_bits_set (ms : Nat) (hms : ms < 2 ^ 32)
    (hne : ms ≠ SDL_MUTEX_MAXWAIT) :
    SDL_MUTEX_MAXWAIT = 2 ^ 32 - 1 ∧ SDL_MUTEX_MAXWAIT = uint32_not 0 ∧
    ms < SDL_MUTEX_MAXWAIT := by
  refine ⟨rfl, rfl, ?_⟩
  have hv : SDL_MUTEX_MAXWAIT = 2 ^ 32 - 1 := rfl
  omega

/-- C9 witness: ms = 50 is representable, differs from the sentinel, and is
strictly below it. -/
theorem maxwait_is_all_bits_set_witness :
    SDL_MUTEX_MAXWAIT = 2 ^ 32 - 1 ∧ SDL_MUTEX_MAXWAIT = uint32_not 0 ∧
    50 < SDL_MUTEX_MAXWAIT :=
  maxwait_is_all_bits_set 50 (by norm_num) (by decide)

/-- C10: exactly the three destroy operations return void; every other
operation declared in SDL_mutex.h has a non-void return channel. -/
theorem destroy_ops_return_void :
    ∀ op : SDLOp, retType op = CRet.void ↔
      (op = SDLOp.destroyMutex ∨ op = SDLOp.destroySemaphore ∨
       op = SDLOp.destroyCond) := by
  intro op
  cases op <;> decide

lemma lockN_owned (t : ThreadId) :
    ∀ (n : Nat) (m : SDL_mutex), m.owner = some t →
      lockN t n m = some { owner := some t, depth := m.depth + n } := by
  intro n
  induction n with
  | zero =>
      intro m h
      rcases m with ⟨o, d⟩
      simp only at h
      subst h
      simp [lockN]
  | succ n ih =>
      intro m h
      rcases m with ⟨o, d⟩
      simp only at h
      subst h
      have h1 : SDL_LockMutex t { owner := some t, depth := d } =
          some (0, { owner := some t, depth := d + 1 }) := by
        simp [SDL_LockMutex]
      simp only [lockN, h1, Option.some_bind]
      rw [ih { owner := some t, depth := d + 1 } rfl]
      have h2 : d + 1 + n = d + (n + 1) := by omega
      simp only [h2]

lemma unlockN_lt (t : ThreadId) :
    ∀ (j k : Nat), j < k →
      unlockN t j { owner := some t, depth := k } =
        some { owner := some t, depth := k - j } := by
  intro j
  induction j with
  | zero =>
      intro k hk
      simp [unlockN]
  | succ j ih =>
      intro k hk
      have hne : ¬(k - 1 = 0) := by omega
      have h1 : SDL_UnlockMutex t { owner := some t, depth := k } =
          some (0, { owner := some t, depth := k - 1 }) := by
        simp [SDL_UnlockMutex, hne]
      simp only [unlockN, h1, Option.some_bind]
      rw [ih (k - 1) (by omega)]
      have h2 : k - 1 - j = k - (j + 1) := by omega
      rw [h2]

lemma unlockN_all (t : ThreadId) :
    ∀ k : Nat, 1 ≤ k →
      unlockN t k { owner := some t, depth := k } =
        some { owner := none, depth := 0 } := by
  intro k
  induction k with
  | zero => intro h; exact absurd h (by omega)
  | succ k ih =>
      intro _
      rcases Nat.eq_zero_or_pos k with hk | hk
      · subst hk
        have h1 : SDL_UnlockMutex t { owner := some t, depth := 1 } =
            some (0, { owner := none, depth := 0 }) := by
          simp [SDL_UnlockMutex]
        simp [unlockN, h1]
      · have hne : ¬(k + 1 - 1 = 0) := by omega
        have h1 : SDL_UnlockMutex t { owner := some t, depth := k + 1 } =
            some (0, { owner := some t, depth := k }) := by
          simp [SDL_UnlockMutex, hne]
          omega
        simp only [unlockN, h1, Option.some_bind]
        exact ih hk

/-- C1: an owning thread relocks without blocking — SDL_LockMutex by the
owner increments the depth and returns immediately; locking a fresh mutex
k times leaves depth k, and after any j < k unlocks the mutex is still
owned (a different thread blocks in SDL_LockMutex and gets the would-block
sentinel from a try-lock), while the k-th unlock clears the owner and
makes the mutex available to other threads. -/
theorem lockMutex_recursive (t u : ThreadId) (k j : Nat) (m : SDL_mutex)
    (hm : m.owner = some t) (hk : 1 ≤ k) (hj : j < k) (hu : u ≠ t) :
    SDL_LockMutex t m = some (0, { owner := some t, depth := m.depth + 1 }) ∧
    lockN t k SDL_CreateMutex = some { owner := some t, depth := k } ∧
    unlockN t j { owner := some t, depth := k } =
      some { owner := some t, depth := k - j } ∧
    SDL_LockMutex u { owner := some t, depth := k - j } = none ∧
    (tryLockMutex u { owner := some t, depth := k - j }).1 =
      SDL_MUTEX_TIMEDOUT ∧
    available { owner := some t, depth := k - j } = false ∧
    unlockN t k { owner := some t, depth := k } =
      some { owner := none, depth := 0 } ∧
    available { owner := none, depth := 0 } = true := by
  have htu : t ≠ u := fun hx => hu hx.symm
  refine ⟨?_, ?_, unlockN_lt t j k hj, ?_, ?_, rfl, unlockN_all t k hk, rfl⟩
  · rcases m with ⟨o, d⟩
    simp only at hm
    subst hm
    simp [SDL_LockMutex]
  · obtain ⟨n, rfl⟩ : ∃ n, k = n + 1 := ⟨k - 1, by omega⟩
    have h1 : SDL_LockMutex t SDL_CreateMutex =
        some (0, { owner := some t, depth := 1 }) := by
      simp [SDL_LockMutex, SDL_CreateMutex]
    simp only [lockN, h1, Option.some_bind]
    rw [lockN_owned t n { owner := some t, depth := 1 } rfl]
    have h2 : 1 + n = n + 1 := by omega
    simp only [h2]
  · simp [SDL_LockMutex, htu]
  · simp [tryLockMutex, htu]

/-- C1 witness: thread 0 relocks a mutex it holds at depth 3; from a fresh
mutex, two locks then one unlock keep thread 0 as owner and block thread 1,
and the second unlock clears the owner. -/
theorem lockMutex_recursive_witness :
    SDL_LockMutex 0 { owner := some 0, depth := 3 } =
      some (0, { owner := some 0, depth := 4 }) ∧
    lockN 0 2 SDL_CreateMutex = some { owner := some 0, depth := 2 } ∧
    unlockN 0 1 { owner := some 0, depth := 2 } =
      some { owner := some 0, depth := 1 } ∧
    SDL_LockMutex 1 { owner := some 0, depth := 1 } = none ∧
    (tryLockMutex 1 { owner := some 0, depth := 1 }).1 = SDL_MUTEX_TIMEDOUT ∧
    available { owner := some 0, depth := 1 } = false ∧
    unlockN 0 2 { owner := some 0, depth := 2 } =
      some { owner := none, depth := 0 } ∧
    available { owner := none, depth := 0 } = true :=
  lockMutex_recursive 0 1 2 1 { owner := some 0, depth := 3 } rfl
    (by decide) (by decide) (by decide)

/-- C2: the invariant depth > 0 exactly when an owner exists holds for a
created mutex (depth 0, no owner) and is preserved by SDL_LockMutex,
tryLockMutex and SDL_UnlockMutex; whenever an operation by thread t changes
the depth, t is the owner — it already owned the mutex, or it acquired a
free mutex (depth 0) and became the owner, and an unlock changing the depth
was issued by the pre-state owner. -/
theorem mutex_invariant_preserved (t : ThreadId) (m : SDL_mutex)
    (h : mutexInv m) :
    (mutexInv SDL_CreateMutex ∧ SDL_CreateMutex.depth = 0 ∧
      SDL_CreateMutex.owner = none) ∧
    mutexInv (lockState t m) ∧ mutexInv (tryLockMutex t m).2 ∧
    mutexInv (unlockState t m) ∧
    ((lockState t m).depth ≠ m.depth →
      m.owner = some t ∨ (m.depth = 0 ∧ (lockState t m).owner = some t)) ∧
    ((tryLockMutex t m).2.depth ≠ m.depth →
      m.owner = some t ∨ (m.depth = 0 ∧ (tryLockMutex t m).2.owner = some t)) ∧
    ((unlockState t m).depth ≠ m.depth → m.owner = some t) := by
  rcases m with ⟨o, d⟩
  rcases o with _ | u
  · have hd : d = 0 := by
      unfold mutexInv at h
      simp at h
      omega
    subst hd
    refine ⟨by decide, ?_, ?_, ?_, ?_, ?_, ?_⟩ <;>
      simp [lockState, unlockState, SDL_LockMutex, SDL_UnlockMutex,
        tryLockMutex, mutexInv]
  · have hd : 0 < d := by
      unfold mutexInv at h
      simp at h
      omega
    by_cases hut : u = t
    · subst hut
      refine ⟨by decide, ?_, ?_, ?_, ?_, ?_, ?_⟩
      · simp [lockState, SDL_LockMutex, mutexInv]
      · simp [tryLockMutex, mutexInv]
      · by_cases hd1 : d - 1 = 0
        · simp [unlockState, SDL_UnlockMutex, hd1, mutexInv]
        · simp [unlockState, SDL_UnlockMutex, hd1, mutexInv]
          omega
      · intro _
        exact Or.inl rfl
      · intro _
        exact Or.inl rfl
      · intro _
        exact rfl
    · have hut2 : ¬(u = t) := hut
      refine ⟨by decide, ?_, ?_, ?_, ?_, ?_, ?_⟩ <;>
        simp [lockState, unlockState, SDL_LockMutex, SDL_UnlockMutex,
          tryLockMutex, hut2, mutexInv] <;> omega

/-- C2 witness: a mutex held by thread 0 at depth 2 satisfies the invariant,
and all operations by thread 1 preserve it. -/
theorem mutex_invariant_preserved_witness :
    (mutexInv SDL_CreateMutex ∧ SDL_CreateMutex.depth = 0 ∧
      SDL_CreateMutex.owner = none) ∧
    mutexInv (lockState 1 { owner := some 0, depth := 2 }) ∧
    mutexInv (tryLockMutex 1 { owner := some 0, depth := 2 }).2 ∧
    mutexInv (unlockState 1 { owner := some 0, depth := 2 }) ∧
    ((lockState 1 { owner := some 0, depth := 2 }).depth ≠ 2 →
      (some 0 : Option ThreadId) = some 1 ∨
      (2 = 0 ∧ (lockState 1 { owner := some 0, depth := 2 }).owner = some 1)) ∧
    ((tryLockMutex 1 { owner := some 0, depth := 2 }).2.depth ≠ 2 →
      (some 0 : Option ThreadId) = some 1 ∨
      (2 = 0 ∧
        (tryLockMutex 1 { owner := some 0, depth := 2 }).2.owner = some 1)) ∧
    ((unlockState 1 { owner := some 0, depth := 2 }).depth ≠ 2 →
      (some 0 : Option ThreadId) = some 1) :=
  mutex_invariant_preserved 1 { owner := some 0, depth := 2 } (by decide)

/-- C7: SDL_TryLockMutex never blocks — on a valid handle it always returns
a value, 0 after acquiring a free mutex or recursively incrementing as the
owner, and the would-block sentinel SDL_MUTEX_TIMEDOUT exactly when a
different thread owns the mutex (leaving the state unchanged); on a null
handle it returns the error -1. -/
theorem tryLockMutex_never_blocks (t : ThreadId) (m : SDL_mutex) :
    ((SDL_TryLockMutex t (some m)).1 = 0 ∨
      (SDL_TryLockMutex t (some m)).1 = SDL_MUTEX_TIMEDOUT) ∧
    ((SDL_TryLockMutex t (some m)).1 = SDL_MUTEX_TIMEDOUT ↔
      (m.owner ≠ none ∧ m.owner ≠ some t)) ∧
    (m.owner = some t →
      SDL_TryLockMutex t (some m) =
        (0, some { owner := some t, depth := m.depth + 1 })) ∧
    (m.owner = none →
      SDL_TryLockMutex t (some m) =
        (0, some { owner := some t, depth := 1 })) ∧
    (m.owner ≠ none ∧ m.owner ≠ some t →
      SDL_TryLockMutex t (some m) = (SDL_MUTEX_TIMEDOUT, some m)) ∧
    (SDL_TryLockMutex t none).1 = -1 := by
  rcases m with ⟨o, d⟩
  rcases o with _ | u
  · simp [SDL_TryLockMutex, tryLockMutex, SDL_MUTEX_TIMEDOUT]
  · by_cases hut : u = t
    · subst hut
      simp [SDL_TryLockMutex, tryLockMutex, SDL_MUTEX_TIMEDOUT]
    · simp [SDL_TryLockMutex, tryLockMutex, hut, SDL_MUTEX_TIMEDOUT]

/-- C7 witness: thread 0 recursively increments its own mutex, acquires a
free one, gets the would-block sentinel on a mutex owned by thread 1, and
gets -1 on a null handle. -/
theorem tryLockMutex_never_blocks_witness :
    SDL_TryLockMutex 0 (some { owner := some 0, depth := 2 }) =
      (0, some { owner := some 0, depth := 3 }) ∧
    SDL_TryLockMutex 0 (some { owner := none, depth := 0 }) =
      (0, some { owner := some 0, depth := 1 }) ∧
    SDL_TryLockMutex 0 (some { owner := some 1, depth := 1 }) =
      (SDL_MUTEX_TIMEDOUT, some { owner := some 1, depth := 1 }) ∧
    (SDL_TryLockMutex 0 none).1 = -1 :=
  ⟨(tryLockMutex_never_blocks 0 { owner := some 0, depth := 2 }).2.2.1 rfl,
   (tryLockMutex_never_blocks 0 { owner := none, depth := 0 }).2.2.2.1 rfl,
   (tryLockMutex_never_blocks 0 { owner := some 1, depth := 1 }).2.2.2.2.1
     (by decide),
   (tryLockMutex_never_blocks 0 { owner := none, depth := 0 }).2.2.2.2.2⟩

lemma condStep_last {t : ThreadId} {ms : Nat} {c : CondConfig}
    {m2 : SDL_mutex} {r : Int}
    (h : CondStep t ms c ⟨m2, WaitPhase.done r⟩) :
    m2 = { owner := some t, depth := 1 } ∧
    c.phase = WaitPhase.woken r ∧ c.m.owner = none := by
  cases h with
  | relock m r hfree => exact ⟨rfl, rfl, hfree⟩

lemma condTrace_entry {t : ThreadId} {ms : Nat} {m : SDL_mutex}
    {c : CondConfig}
    (h : Relation.ReflTransGen (CondStep t ms) ⟨m, WaitPhase.start⟩ c)
    (hne : c.phase ≠ WaitPhase.start) :
    m.owner = some t ∧ m.depth = 1 ∧
    Relation.ReflTransGen (CondStep t ms)
      ⟨{ owner := none, depth := 0 }, WaitPhase.waiting⟩ c := by
  rcases Relation.ReflTransGen.cases_head h with heq | ⟨b, hstep, htail⟩
  · exact absurd (congrArg CondConfig.phase heq.symm) hne
  · cases hstep with
    | release m hown hd => exact ⟨hown, hd, htail⟩

lemma condTrace_result {t : ThreadId} {ms : Nat} {a b : CondConfig}
    (h : Relation.ReflTransGen (CondStep t ms) a b) :
    ∀ r : Int, b.phase = WaitPhase.woken r ∨ b.phase = WaitPhase.done r →
      (a.phase = WaitPhase.woken r ∨ a.phase = WaitPhase.done r) ∨
        (r = 0 ∨ r = SDL_MUTEX_TIMEDOUT ∨ r = -1) := by
  induction h with
  | refl =>
      intro r hr
      exact Or.inl hr
  | tail hab hbc ih =>
      intro r hr
      cases hbc with
      | release m hown hd =>
          simp only at hr
          rcases hr with hr | hr <;> exact absurd hr (by simp)
      | wakeSignal m =>
          simp only at hr
          rcases hr with hr | hr
          · cases hr
            exact Or.inr (Or.inl rfl)
          · exact absurd hr (by simp)
      | wakeDeadline m hms =>
          simp only at hr
          rcases hr with hr | hr
          · cases hr
            exact Or.inr (Or.inr (Or.inl rfl))
          · exact absurd hr (by simp)
      | wakeError m =>
          simp only at hr
          rcases hr with hr | hr
          · cases hr
            exact Or.inr (Or.inr (Or.inr rfl))
          · exact absurd hr (by simp)
      | relock m r2 hfree =>
          simp only at hr
          rcases hr with hr | hr
          · exact absurd hr (by simp)
          · injection hr with h2
            subst h2
            exact ih _ (Or.inl rfl)

lemma condTrace_deadline {t : ThreadId} {ms : Nat} {a b : CondConfig}
    (h : Relation.ReflTransGen (CondStep t ms) a b) :
    (b.phase = WaitPhase.woken SDL_MUTEX_TIMEDOUT ∨
      b.phase = WaitPhase.done SDL_MUTEX_TIMEDOUT) →
      (a.phase = WaitPhase.woken SDL_MUTEX_TIMEDOUT ∨
        a.phase = WaitPhase.done SDL_MUTEX_TIMEDOUT) ∨
        ms ≠ SDL_MUTEX_MAXWAIT := by
  induction h with
  | refl =>
      intro hr
      exact Or.inl hr
  | tail hab hbc ih =>
      intro hr
      cases hbc with
      | release m hown hd =>
          simp only at hr
          rcases hr with hr | hr <;> exact absurd hr (by simp)
      | wakeSignal m =>
          simp only at hr
          rcases hr with hr | hr
          · exact absurd hr (by simp [SDL_MUTEX_TIMEDOUT])
          · exact absurd hr (by simp)
      | wakeDeadline m hms =>
          exact Or.inr hms
      | wakeError m =>
          simp only at hr
          rcases hr with hr | hr
          · exact absurd hr (by simp [SDL_MUTEX_TIMEDOUT])
          · exact absurd hr (by simp)
      | relock m r2 hfree =>
          simp only at hr
          rcases hr with hr | hr
          · exact absurd hr (by simp)
          · cases hr
            exact ih (Or.inl rfl)

/-- C3: SDL_CondWait (the indefinite wait) by thread t can begin only when
t holds the mutex at depth exactly 1; its first step atomically releases
the mutex and suspends the caller (the remaining trace starts from the
released mutex in the waiting phase), and every return — in particular
every Success return — happens with the mutex re-acquired by t at
depth 1. -/
theorem condWait_correct (t : ThreadId) (m m2 : SDL_mutex) (r : Int)
    (h : Relation.ReflTransGen (CondWaitStep t) ⟨m, WaitPhase.start⟩
      ⟨m2, WaitPhase.done r⟩) :
    (m.owner = some t ∧ m.depth = 1) ∧
    Relation.ReflTransGen (CondWaitStep t)
      ⟨{ owner := none, depth := 0 }, WaitPhase.waiting⟩
      ⟨m2, WaitPhase.done r⟩ ∧
    m2.owner = some t ∧ m2.depth = 1 := by
  have h2 : Relation.ReflTransGen (CondStep t SDL_MUTEX_MAXWAIT)
      ⟨m, WaitPhase.start⟩ ⟨m2, WaitPhase.done r⟩ := h
  have hentry := condTrace_entry h2 (by simp)
  rcases Relation.ReflTransGen.cases_tail h2 with heq | ⟨b, hinit, hlast⟩
  · exact absurd (congrArg CondConfig.phase heq) (by simp)
  · have hl := condStep_last hlast
    exact ⟨⟨hentry.1, hentry.2.1⟩, hentry.2.2, by rw [hl.1], by rw [hl.1]⟩

/-- C3 witness: thread 0 enters holding the mutex at depth 1, is signaled,
and returns with result 0 holding the mutex again. -/
theorem condWait_correct_witness :
    (({ owner := some 0, depth := 1 } : SDL_mutex).owner = some 0 ∧
      ({ owner := some 0, depth := 1 } : SDL_mutex).depth = 1) ∧
    Relation.ReflTransGen (CondWaitStep 0)
      ⟨{ owner := none, depth := 0 }, WaitPhase.waiting⟩
      ⟨{ owner := some 0, depth := 1 }, WaitPhase.done 0⟩ ∧
    ({ owner := some 0, depth := 1 } : SDL_mutex).owner = some 0 ∧
    ({ owner := some 0, depth := 1 } : SDL_mutex).depth = 1 :=
  condWait_correct 0 { owner := some 0, depth := 1 }
    { owner := some 0, depth := 1 } 0
    (Relation.ReflTransGen.head
      (CondStep.release { owner := some 0, depth := 1 } rfl rfl)
      (Relation.ReflTransGen.head
        (CondStep.wakeSignal { owner := none, depth := 0 })
        (Relation.ReflTransGen.single
          (CondStep.relock { owner := none, depth := 0 } 0 rfl))))

/-- C4: every completed SDL_CondWaitTimeout call returns 0 (woken by
signal/broadcast), SDL_MUTEX_TIMEDOUT (deadline fired, possible only for a
finite ms), or the error -1, and in every one of these cases — including
TimedOut and Error — the mutex is re-locked by the caller at depth 1
before the call returns. -/
theorem condWaitTimeout_correct (t : ThreadId) (ms : Nat) (m m2 : SDL_mutex)
    (r : Int)
    (h : Relation.ReflTransGen (CondStep t ms) ⟨m, WaitPhase.start⟩
      ⟨m2, WaitPhase.done r⟩) :
    (r = 0 ∨ r = SDL_MUTEX_TIMEDOUT ∨ r = -1) ∧
    m2.owner = some t ∧ m2.depth = 1 ∧
    (r = SDL_MUTEX_TIMEDOUT → ms ≠ SDL_MUTEX_MAXWAIT) := by
  have hcls : r = 0 ∨ r = SDL_MUTEX_TIMEDOUT ∨ r = -1 := by
    rcases condTrace_result h r (Or.inr rfl) with hx | hx
    · rcases hx with hx | hx <;> exact absurd hx (by simp)
    · exact hx
  rcases Relation.ReflTransGen.cases_tail h with heq | ⟨b, hinit, hlast⟩
  · exact absurd (congrArg CondConfig.phase heq) (by simp)
  · have hl := condStep_last hlast
    refine ⟨hcls, by rw [hl.1], by rw [hl.1], ?_⟩
    intro hr
    rcases condTrace_deadline h (Or.inr (by rw [hr])) with hx | hx
    · rcases hx with hx | hx <;> exact absurd hx (by simp)
    · exact hx

/-- C4 witness: with ms = 5 the deadline fires, the call returns
SDL_MUTEX_TIMEDOUT, and thread 0 holds the mutex again at depth 1. -/
theorem condWaitTimeout_correct_witness :
    (SDL_MUTEX_TIMEDOUT = 0 ∨ SDL_MUTEX_TIMEDOUT = SDL_MUTEX_TIMEDOUT ∨
      SDL_MUTEX_TIMEDOUT = -1) ∧
    ({ owner := some 0, depth := 1 } : SDL_mutex).owner = some 0 ∧
    ({ owner := some 0, depth := 1 } : SDL_mutex).depth = 1 ∧
    (SDL_MUTEX_TIMEDOUT = SDL_MUTEX_TIMEDOUT → (5 : Nat) ≠ SDL_MUTEX_MAXWAIT) :=
  condWaitTimeout_correct 0 5 { owner := some 0, depth := 1 }
    { owner := some 0, depth := 1 } SDL_MUTEX_TIMEDOUT
    (Relation.ReflTransGen.head
      (CondStep.release { owner := some 0, depth := 1 } rfl rfl)
      (Relation.ReflTransGen.head
        (CondStep.wakeDeadline { owner := none, depth := 0 } (by decide))
        (Relation.ReflTransGen.single
          (CondStep.relock { owner := none, depth := 0 } SDL_MUTEX_TIMEDOUT
            rfl))))
